import Mathlib

/-!
Verification of the TTE (Target Trial Emulation) pipeline in
`src/TTE/TTE-v1.ipynb` against its natural-language specification.

The notebook is a four-stage batch pipeline over an in-memory pandas table:
1. load the observation table (12 columns, fixed schema);
2. fit a censoring logit, attach `p_uncensored` (floor-clipped at 0.01) and
   `ipcw = 1 / p_uncensored`;
3. `expand_trials`: one trial-entry row per input row with `eligible == 1`,
   adding `trial_period = period` and `followup_time = 0`;
4. winsorize `ipcw` at the column 99th percentile (pandas linear
   interpolation) and fit a weighted binomial GLM.

Numeric cell values are embedded as rationals.  The two maximum-likelihood
fits are performed by statsmodels (an external collaborator per the spec);
they enter the embedding as function parameters: `pred` for the fitted
censoring model per-row predicted probability, and a coefficient-producing
function for each fit in the pipeline relation.  Everything the notebook
itself computes (clipping, weight inversion, trial expansion, quantile,
winsorization, column construction) is translated directly.
-/

/-- One observation record of the input table `data_censored.csv`:
identifiers, covariates, treatment, outcome, censoring and eligibility
columns, as enumerated in the data model of the spec.  All cell values are
embedded as rationals. -/
structure Row where
  id : ℚ
  period : ℚ
  treatment : ℚ
  x1 : ℚ
  x2 : ℚ
  x3 : ℚ
  x4 : ℚ
  age : ℚ
  age_s : ℚ
  outcome : ℚ
  censored : ℚ
  eligible : ℚ
deriving Repr, DecidableEq

/-- A row after the censoring-weight stage (notebook Step 2): the original
row plus the three derived columns `uncensored`, `p_uncensored`, `ipcw`. -/
structure WRow where
  base : Row
  uncensored : ℚ
  p_uncensored : ℚ
  ipcw : ℚ
deriving Repr, DecidableEq

/-- `Series.clip(lower=lo)`: values below `lo` are set to `lo`, others are
unchanged. -/
def clipLower (lo x : ℚ) : ℚ := max x lo

/-- The per-row computation of notebook Step 2, given the fitted censoring
model predicted probability `pred r` (`ipcw_model.predict`, an external
statsmodels fit):
`uncensored = 1 - censored`;
`p_uncensored = predict(...)` then `.clip(lower=0.01)`;
`ipcw = 1.0 / p_uncensored`. -/
def censorRow (pred : Row → ℚ) (r : Row) : WRow :=
  { base := r
    uncensored := 1 - r.censored
    p_uncensored := clipLower (1/100) (pred r)
    ipcw := 1 / clipLower (1/100) (pred r) }

/-- Notebook Step 2 applied to the whole table: the three derived columns
are computed row by row. -/
def addCensorWeights (pred : Row → ℚ) (df : List Row) : List WRow :=
  df.map (censorRow pred)

/-- A trial-entry row of the expanded table: a copy of a weighted
observation row plus `trial_period` and `followup_time`. -/
structure TrialRow where
  base : WRow
  trial_period : ℚ
  followup_time : ℚ
deriving Repr, DecidableEq

/-- `expand_trials` (notebook Step 3): iterate over the rows in order; for
every row with `eligible == 1` append a copy of the row with
`trial_period = row["period"]` and `followup_time = 0`; rows with
`eligible != 1` contribute nothing. -/
def expand_trials : List WRow → List TrialRow
  | [] => []
  | r :: rest =>
    if r.base.eligible = 1 then
      { base := r, trial_period := r.base.period, followup_time := 0 }
        :: expand_trials rest
    else
      expand_trials rest

/-- Helper: `expand_trials` is the filter of the eligible rows, each mapped
to its trial-entry copy. -/
theorem expand_trials_eq_filter_map (df : List WRow) :
    expand_trials df
      = (df.filter (fun r => decide (r.base.eligible = 1))).map
          (fun r => { base := r, trial_period := r.base.period,
                      followup_time := 0 }) := by
  induction df with
  | nil => rfl
  | cons r rest ih =>
    by_cases h : r.base.eligible = 1 <;>
      simp [expand_trials, List.filter_cons, h, ih]

/-- Helper: the number of expanded rows is the number of eligible rows. -/
theorem expand_trials_length (df : List WRow) :
    (expand_trials df).length
      = df.countP (fun r => decide (r.base.eligible = 1)) := by
  rw [expand_trials_eq_filter_map, List.length_map, List.countP_eq_length_filter]

/-- C1: the expander emits exactly one row per input row with
`eligible == 1` and none for the others; each output row is a full copy of
its source row (`base`) with `trial_period` equal to the `period` of that row
and `followup_time = 0`; the relative order of the eligible rows is
preserved; and the output length is the count of eligible input rows. -/
theorem expand_trials_correct (df : List WRow) :
    expand_trials df
        = (df.filter (fun r => decide (r.base.eligible = 1))).map
            (fun r => { base := r, trial_period := r.base.period,
                        followup_time := 0 })
      ∧ (expand_trials df).length
          = df.countP (fun r => decide (r.base.eligible = 1)) :=
  ⟨expand_trials_eq_filter_map df, expand_trials_length df⟩

/-- Insert a value into an already sorted (ascending) list of rationals. -/
def insertAsc (x : ℚ) : List ℚ → List ℚ
  | [] => [x]
  | y :: ys => if x ≤ y then x :: y :: ys else y :: insertAsc x ys

/-- Sort a list of rationals ascending (insertion sort); models the sort
performed inside `Series.quantile`. -/
def sortAsc (xs : List ℚ) : List ℚ := xs.foldr insertAsc []

/-- `Series.quantile(0.99)` with the default linear interpolation (the
numpy convention): on the ascending sorted values `s 0 ≤ ... ≤ s (n-1)`,
the position is `h = 0.99 * (n - 1) = 99 * (n - 1) / 100`; with
`j = floor h` the result is `s j + (h - j) * (s (j+1) - s j)`.  Since
`h ≥ 0`, its floor is the natural-number division `99 * (n - 1) / 100`.
The notebook only applies this to the nonempty `ipcw` column; the empty
case defaults to `0`. -/
def quantile99 (xs : List ℚ) : ℚ :=
  let s := sortAsc xs
  match s with
  | [] => 0
  | _ :: _ =>
    let hNum : ℕ := 99 * (s.length - 1)
    let j : ℕ := hNum / 100
    let lo := s.getD j 0
    let hi := s.getD (j + 1) lo
    lo + ((hNum : ℚ) / 100 - (j : ℚ)) * (hi - lo)

/-- The winsorization of notebook Step 4 as a column operation:
`q99 = col.quantile(0.99)` followed by `col.apply(lambda w: min(w, q99))`. -/
def winsorizeCol (xs : List ℚ) : List ℚ :=
  xs.map (fun w => min w (quantile99 xs))

/-- A row of the table handed to the outcome GLM (notebook Step 4): a
trial-entry row plus the derived columns `assigned_treatment` (a copy of
`treatment`) and `ipcw_winsor` (the winsorized weight). -/
structure MsmRow where
  base : TrialRow
  assigned_treatment : ℚ
  ipcw_winsor : ℚ
deriving Repr, DecidableEq

/-- The column computations of notebook Step 4 before the GLM call:
`expanded_data["assigned_treatment"] = expanded_data["treatment"]`;
`q99 = expanded_data["ipcw"].quantile(0.99)`;
`expanded_data["ipcw_winsor"] = expanded_data["ipcw"].apply(lambda w: min(w, q99))`. -/
def msmRows (t : List TrialRow) : List MsmRow :=
  let q99 := quantile99 (t.map (fun r => r.base.ipcw))
  t.map (fun r =>
    { base := r
      assigned_treatment := r.base.base.treatment
      ipcw_winsor := min r.base.ipcw q99 })

/-- The covariate row the outcome-model formula
`outcome ~ assigned_treatment + x2 + followup_time + np.power(followup_time, 2)
+ trial_period + np.power(trial_period, 2)` builds for one expanded row
(intercept first). -/
def covariateRow (m : MsmRow) : List ℚ :=
  [1, m.assigned_treatment, m.base.base.base.x2, m.base.followup_time,
   m.base.followup_time ^ 2, m.base.trial_period, m.base.trial_period ^ 2]

/-- The `followup_time` covariate column passed to the outcome GLM. -/
def followupCol (ms : List MsmRow) : List ℚ :=
  ms.map (fun m => m.base.followup_time)

/-- The `np.power(followup_time, 2)` covariate column passed to the
outcome GLM. -/
def followupSqCol (ms : List MsmRow) : List ℚ :=
  ms.map (fun m => m.base.followup_time ^ 2)

/-- A pandas DataFrame as a Python object: `tid` is the object identity
(`id(...)`), `rows` its contents.  In-place column assignment
(`df[col] = ...`) keeps `tid`; building a frame with `pd.DataFrame(...)`
allocates a fresh one. -/
structure PyTable (α : Type) where
  tid : ℕ
  rows : List α
deriving Repr

/-- Notebook Step 2 at table level: the three weight columns are assigned
in place on the frame of the loader, `data`, so the object identity is kept. -/
def stage2 (pred : Row → ℚ) (t : PyTable Row) : PyTable WRow :=
  { tid := t.tid, rows := addCensorWeights pred t.rows }

/-- Notebook Step 3 at table level: `expand_trials` returns
`pd.DataFrame(expanded_rows)`, a freshly allocated frame (modelled with
the next object id). -/
def stage3 (t : PyTable WRow) : PyTable TrialRow :=
  { tid := t.tid + 1, rows := expand_trials t.rows }

/-- Notebook Step 4 at table level.  When the expanded row list is empty,
`pd.DataFrame([])` has no columns at all, so the very first line
`expanded_data["assigned_treatment"] = expanded_data["treatment"]` raises
`KeyError` naming the column `treatment` (modelled as `Except.error`); no fitted model is
produced.  Otherwise the two derived columns are assigned in place on the
frame of the expander, keeping its object identity. -/
def stage4 (t : PyTable TrialRow) : Except String (PyTable MsmRow) :=
  if t.rows.isEmpty then
    Except.error "KeyError: treatment"
  else
    Except.ok { tid := t.tid, rows := msmRows t.rows }

/-- The outcome of the external statsmodels censoring fit
(`smf.logit("uncensored ~ x2 + x1", data=data).fit(disp=False)`): its
coefficients and its per-row predicted probability
(`ipcw_model.predict`). -/
structure LogitFit where
  coef : List ℚ
  predict : Row → ℚ

/-- The control state of the pipeline: which notebook cell has completed, with
the tables and fitted coefficients produced so far.  `failed` is an
uncaught Python exception. -/
inductive PipeState where
  | loaded : PyTable Row → PipeState
  | weighted : LogitFit → PyTable WRow → PipeState
  | expanded : LogitFit → PyTable TrialRow → PipeState
  | fitted : LogitFit → List ℚ → PyTable MsmRow → PipeState
  | failed : String → PipeState

/-- One notebook cell as a transition between pipeline states.  The two
maximum-likelihood fits are performed by statsmodels, an external
collaborator with no stochastic component (spec section 7: fitting is
deterministic given fixed inputs); they enter as the function parameters
`fitL` (censoring logit) and `fitG` (outcome GLM coefficients). -/
inductive Step (fitL : List Row → LogitFit) (fitG : List MsmRow → List ℚ) :
    PipeState → PipeState → Prop where
  | weight (t : PyTable Row) :
      Step fitL fitG (PipeState.loaded t)
        (PipeState.weighted (fitL t.rows) (stage2 (fitL t.rows).predict t))
  | expand (m : LogitFit) (t : PyTable WRow) :
      Step fitL fitG (PipeState.weighted m t) (PipeState.expanded m (stage3 t))
  | fitEmpty (m : LogitFit) (t : PyTable TrialRow) (h : t.rows = []) :
      Step fitL fitG (PipeState.expanded m t)
        (PipeState.failed "KeyError: treatment")
  | fit (m : LogitFit) (t : PyTable TrialRow) (h : t.rows ≠ []) :
      Step fitL fitG (PipeState.expanded m t)
        (PipeState.fitted m (fitG (msmRows t.rows))
          { tid := t.tid, rows := msmRows t.rows })

/-- A concrete eligible observation row (period 0). -/
def sampleRowA : Row :=
  { id := 1, period := 0, treatment := 1, x1 := 1, x2 := 1/2, x3 := 0,
    x4 := 1, age := 36, age_s := 1/10, outcome := 0, censored := 0,
    eligible := 1 }

/-- A concrete eligible observation row (period 1). -/
def sampleRowB : Row :=
  { id := 1, period := 1, treatment := 0, x1 := 1, x2 := 1/4, x3 := 0,
    x4 := 1, age := 36, age_s := 1/10, outcome := 0, censored := 0,
    eligible := 1 }

/-- A concrete ineligible observation row. -/
def sampleRowC : Row :=
  { id := 2, period := 0, treatment := 0, x1 := 0, x2 := 1/4, x3 := 1,
    x4 := 0, age := 40, age_s := 1/5, outcome := 0, censored := 1,
    eligible := 0 }

/-- A concrete predicted-probability function standing for the fitted
censoring model: probability 1 at period 0, one half later. -/
def samplePred : Row → ℚ := fun r => if r.period = 0 then 1 else 1/2

/-- `sampleRowA` after the censoring-weight stage (`p = 1`, `ipcw = 1`). -/
def wRowA : WRow :=
  { base := sampleRowA, uncensored := 1, p_uncensored := 1, ipcw := 1 }

/-- `sampleRowB` after the censoring-weight stage (`p = 1/2`, `ipcw = 2`). -/
def wRowB : WRow :=
  { base := sampleRowB, uncensored := 1, p_uncensored := 1/2, ipcw := 2 }

/-- The trial entry of `wRowA`. -/
def trialA : TrialRow :=
  { base := wRowA, trial_period := 0, followup_time := 0 }

/-- The trial entry of `wRowB`. -/
def trialB : TrialRow :=
  { base := wRowB, trial_period := 1, followup_time := 0 }

/-- A concrete two-row expanded table with `ipcw` column `[1, 2]`. -/
def sampleTrials : List TrialRow := [trialA, trialB]

/-- The outcome-stage row built from `trialA`: its `ipcw` is 1, below the
99th percentile `199/100` of the column `[1, 2]`, so `ipcw_winsor = 1`. -/
def sampleMsmA : MsmRow :=
  { base := trialA, assigned_treatment := 1, ipcw_winsor := 1 }

/-- C2 counterexample: winsorization is not idempotent when the second
pass recomputes the 99th percentile.  On the expanded table with `ipcw`
column `[1, 2]`, the first pass caps at `q99 = 1.99` giving `[1, 1.99]`;
the recomputed 99th percentile of `[1, 1.99]` is `1.9801`, so a second
winsorization pass lowers the second value again. -/
theorem winsorize_second_pass_changes :
    winsorizeCol ((msmRows sampleTrials).map (fun m => m.ipcw_winsor))
      ≠ (msmRows sampleTrials).map (fun m => m.ipcw_winsor) := by
  norm_num [winsorizeCol, msmRows, sampleTrials, trialA, trialB, wRowA,
    wRowB, quantile99, sortAsc, insertAsc, min_def]

/-- C2 (amended): over the expanded table, every winsorized weight is at
most the 99th percentile `q99` of the `ipcw` column, winsorization leaves
any weight already at most `q99` unchanged, and re-clipping the winsorized
column at the same `q99` changes no value (idempotence holds at a fixed
cap, not under a recomputed percentile). -/
theorem ipcw_winsor_caps (t : List TrialRow) (m m2 : MsmRow)
    (hm : m ∈ msmRows t) (hm2 : m2 ∈ msmRows t)
    (hle : m2.base.base.ipcw ≤ quantile99 (t.map (fun r => r.base.ipcw))) :
    m.ipcw_winsor ≤ quantile99 (t.map (fun r => r.base.ipcw))
    ∧ m2.ipcw_winsor = m2.base.base.ipcw
    ∧ (msmRows t).map
          (fun u => min u.ipcw_winsor (quantile99 (t.map (fun r => r.base.ipcw))))
        = (msmRows t).map (fun u => u.ipcw_winsor) := by
  obtain ⟨r, hr, rfl⟩ := List.mem_map.mp hm
  obtain ⟨r2, hr2, rfl⟩ := List.mem_map.mp hm2
  refine ⟨min_le_right _ _, min_eq_left hle, ?_⟩
  simp only [msmRows, List.map_map]
  refine List.map_congr_left (fun r hr => ?_)
  simp only [Function.comp]
  rw [min_assoc, min_self]

/-- C2 witness: the amended statement evaluated on the concrete two-row
expanded table, at its first row. -/
theorem ipcw_winsor_caps_witness :
    sampleMsmA.ipcw_winsor ≤ quantile99 (sampleTrials.map (fun r => r.base.ipcw))
    ∧ sampleMsmA.ipcw_winsor = sampleMsmA.base.base.ipcw
    ∧ (msmRows sampleTrials).map
          (fun u => min u.ipcw_winsor
            (quantile99 (sampleTrials.map (fun r => r.base.ipcw))))
        = (msmRows sampleTrials).map (fun u => u.ipcw_winsor) :=
  ipcw_winsor_caps sampleTrials sampleMsmA sampleMsmA
    (by norm_num [msmRows, sampleTrials, sampleMsmA, trialA, trialB, wRowA,
        wRowB, sampleRowA, sampleRowB, quantile99, sortAsc, insertAsc, min_def])
    (by norm_num [msmRows, sampleTrials, sampleMsmA, trialA, trialB, wRowA,
        wRowB, sampleRowA, sampleRowB, quantile99, sortAsc, insertAsc, min_def])
    (by norm_num [sampleTrials, sampleMsmA, trialA, trialB, wRowA, wRowB,
        quantile99, sortAsc, insertAsc])

/-- C3: after the censoring-weight stage, provided the model predictions
are probabilities (at most 1, the range of the logistic sigmoid), every
row has `p_uncensored` in `[0.01, 1]`, `ipcw = 1 / p_uncensored`, and
`ipcw ≥ 1`. -/
theorem censor_weights_bounds (pred : Row → ℚ) (df : List Row) (w : WRow)
    (hpred : ∀ r ∈ df, pred r ≤ 1) (hw : w ∈ addCensorWeights pred df) :
    1/100 ≤ w.p_uncensored ∧ w.p_uncensored ≤ 1
    ∧ w.ipcw = 1 / w.p_uncensored ∧ 1 ≤ w.ipcw := by
  obtain ⟨r, hr, rfl⟩ := List.mem_map.mp hw
  have hp : (0:ℚ) < clipLower (1/100) (pred r) :=
    lt_of_lt_of_le (by norm_num) (le_max_right _ _)
  have hp1 : clipLower (1/100) (pred r) ≤ 1 :=
    max_le (hpred r hr) (by norm_num)
  refine ⟨le_max_right _ _, hp1, rfl, ?_⟩
  rw [censorRow, le_div_iff₀ hp, one_mul]
  exact hp1

/-- C3 witness: the bounds evaluated on a concrete one-row table with
predicted probability one half. -/
theorem censor_weights_bounds_witness :
    1/100 ≤ (censorRow samplePred sampleRowB).p_uncensored
    ∧ (censorRow samplePred sampleRowB).p_uncensored ≤ 1
    ∧ (censorRow samplePred sampleRowB).ipcw
        = 1 / (censorRow samplePred sampleRowB).p_uncensored
    ∧ 1 ≤ (censorRow samplePred sampleRowB).ipcw :=
  censor_weights_bounds samplePred [sampleRowB] (censorRow samplePred sampleRowB)
    (by intro r hr; unfold samplePred; split <;> norm_num)
    (by simp [addCensorWeights])

/-- C4: a row whose model-predicted probability is below 0.01 gets, after
the floor clip, `ipcw` exactly `100 = 1 / 0.01`. -/
theorem ipcw_clip_floor (pred : Row → ℚ) (r : Row) (h : pred r < 1/100) :
    (censorRow pred r).ipcw = 100 := by
  have hc : clipLower (1/100) (pred r) = 1/100 := max_eq_right h.le
  rw [censorRow, hc]
  norm_num

/-- C4 witness: a model prediction of zero is clipped to 0.01 and yields
weight 100. -/
theorem ipcw_clip_floor_witness :
    (censorRow (fun _ => 0) sampleRowA).ipcw = 100 :=
  ipcw_clip_floor (fun _ => 0) sampleRowA (by norm_num)

/-- C5: every column value of an eligible observation row — all twelve
original columns and the three attached weight columns — appears unchanged
in a trial-entry row of the expanded table, which adds only
`trial_period` (the period of the row) and `followup_time = 0`. -/
theorem expand_preserves_columns (df : List WRow) (r : WRow)
    (hr : r ∈ df) (he : r.base.eligible = 1) :
    ∃ t ∈ expand_trials df,
      t.base.base.id = r.base.id ∧ t.base.base.period = r.base.period
      ∧ t.base.base.treatment = r.base.treatment ∧ t.base.base.x1 = r.base.x1
      ∧ t.base.base.x2 = r.base.x2 ∧ t.base.base.x3 = r.base.x3
      ∧ t.base.base.x4 = r.base.x4 ∧ t.base.base.age = r.base.age
      ∧ t.base.base.age_s = r.base.age_s ∧ t.base.base.outcome = r.base.outcome
      ∧ t.base.base.censored = r.base.censored
      ∧ t.base.base.eligible = r.base.eligible
      ∧ t.base.uncensored = r.uncensored
      ∧ t.base.p_uncensored = r.p_uncensored ∧ t.base.ipcw = r.ipcw
      ∧ t.trial_period = r.base.period ∧ t.followup_time = 0 := by
  refine ⟨{ base := r, trial_period := r.base.period, followup_time := 0 },
    ?_, rfl, rfl, rfl, rfl, rfl, rfl, rfl, rfl, rfl, rfl, rfl, rfl, rfl,
    rfl, rfl, rfl, rfl⟩
  rw [expand_trials_eq_filter_map]
  exact List.mem_map.mpr ⟨r, List.mem_filter.mpr ⟨hr, by simp [he]⟩, rfl⟩

/-- C5 witness: column preservation evaluated on a concrete one-row
table. -/
theorem expand_preserves_columns_witness :
    ∃ t ∈ expand_trials [wRowA],
      t.base.base.id = wRowA.base.id ∧ t.base.base.period = wRowA.base.period
      ∧ t.base.base.treatment = wRowA.base.treatment
      ∧ t.base.base.x1 = wRowA.base.x1
      ∧ t.base.base.x2 = wRowA.base.x2 ∧ t.base.base.x3 = wRowA.base.x3
      ∧ t.base.base.x4 = wRowA.base.x4 ∧ t.base.base.age = wRowA.base.age
      ∧ t.base.base.age_s = wRowA.base.age_s
      ∧ t.base.base.outcome = wRowA.base.outcome
      ∧ t.base.base.censored = wRowA.base.censored
      ∧ t.base.base.eligible = wRowA.base.eligible
      ∧ t.base.uncensored = wRowA.uncensored
      ∧ t.base.p_uncensored = wRowA.p_uncensored ∧ t.base.ipcw = wRowA.ipcw
      ∧ t.trial_period = wRowA.base.period ∧ t.followup_time = 0 :=
  expand_preserves_columns [wRowA] wRowA (by simp) rfl

/-- `sampleRowC` after the censoring-weight stage (a censored, ineligible
row). -/
def wRowC : WRow :=
  { base := sampleRowC, uncensored := 0, p_uncensored := 1/4, ipcw := 4 }

/-- C6: when no input row has `eligible == 1`, the expander returns the
empty table, and the outcome-model stage on that empty table fails with an
explicit error (the empty `pd.DataFrame([])` has no columns, so the first
column access raises a `KeyError`) instead of returning a vacuous fit. -/
theorem empty_eligible_fails (d : List WRow) (i : ℕ)
    (h : ∀ r ∈ d, r.base.eligible ≠ 1) :
    expand_trials d = []
    ∧ stage4 (stage3 { tid := i, rows := d })
        = Except.error "KeyError: treatment" := by
  have he : expand_trials d = [] := by
    rw [expand_trials_eq_filter_map]
    have hf : d.filter (fun r => decide (r.base.eligible = 1)) = [] := by
      simp only [List.filter_eq_nil_iff, decide_eq_true_eq]
      exact h
    rw [hf]
    rfl
  refine ⟨he, ?_⟩
  simp [stage4, stage3, he]

/-- C6 witness: a concrete one-row table whose only row is ineligible. -/
theorem empty_eligible_fails_witness :
    expand_trials [wRowC] = []
    ∧ stage4 (stage3 { tid := 0, rows := [wRowC] })
        = Except.error "KeyError: treatment" :=
  empty_eligible_fails [wRowC] 0
    (by
      intro r hr
      simp only [List.mem_singleton] at hr
      subst hr
      norm_num [wRowC, sampleRowC])

/-- C8: the pipeline is deterministic.  With the two external
maximum-likelihood fits modelled as functions of their input data (the
source passes no random seed and statsmodels fitting has no stochastic
component), any two runs of a pipeline stage from the same state produce
the same successor state — in particular the same fitted coefficients for
the censoring model and the outcome model. -/
theorem pipeline_deterministic (fitL : List Row → LogitFit)
    (fitG : List MsmRow → List ℚ) (s t t' : PipeState)
    (h1 : Step fitL fitG s t) (h2 : Step fitL fitG s t') : t = t' := by
  cases h1 <;> cases h2 <;> first | rfl | contradiction

/-- A concrete stand-in for the external censoring-model fit. -/
def sampleFitL : List Row → LogitFit :=
  fun _ => { coef := [0, 0, 0], predict := samplePred }

/-- A concrete stand-in for the external outcome-model fit. -/
def sampleFitG : List MsmRow → List ℚ := fun _ => [0, 0, 0, 0, 0, 0, 0]

/-- C8 witness: two runs of the weight stage from the same concrete loaded
state land in the same state. -/
theorem pipeline_deterministic_witness :
    PipeState.weighted (sampleFitL [sampleRowA])
        (stage2 (sampleFitL [sampleRowA]).predict { tid := 0, rows := [sampleRowA] })
      = PipeState.weighted (sampleFitL [sampleRowA])
          (stage2 (sampleFitL [sampleRowA]).predict { tid := 0, rows := [sampleRowA] }) :=
  pipeline_deterministic sampleFitL sampleFitG
    (PipeState.loaded { tid := 0, rows := [sampleRowA] }) _ _
    (Step.weight { tid := 0, rows := [sampleRowA] })
    (Step.weight { tid := 0, rows := [sampleRowA] })

/-- C9 counterexample: the censoring-weight stage does not allocate a new
output table — it assigns its three columns in place on the frame produced
by the loader, so the object identity of its output equals that of its
input, refuting the claim that every stage returns its own fresh table and
treats its input as read-only. -/
theorem stage2_reuses_input_table :
    ¬ ∀ (pred : Row → ℚ) (t : PyTable Row), (stage2 pred t).tid ≠ t.tid := by
  intro h
  exact h samplePred { tid := 0, rows := [sampleRowA] } rfl

/-- C9 (amended): stages 2 and 4 extend their input frame in place (object
identity preserved), adding only new columns and never altering the values
of the pre-existing columns; only stage 3 allocates a fresh table, whose
rows carry all upstream column values unchanged. -/
theorem stage_ownership (pred : Row → ℚ) (t : PyTable Row) (u : PyTable WRow)
    (v : PyTable TrialRow) (hv : v.rows ≠ []) :
    (stage2 pred t).tid = t.tid
    ∧ (stage2 pred t).rows.map WRow.base = t.rows
    ∧ (stage3 u).tid ≠ u.tid
    ∧ (stage3 u).rows.map TrialRow.base
        = u.rows.filter (fun r => decide (r.base.eligible = 1))
    ∧ stage4 v = Except.ok { tid := v.tid, rows := msmRows v.rows }
    ∧ (msmRows v.rows).map MsmRow.base = v.rows := by
  refine ⟨rfl, ?_, ?_, ?_, ?_, ?_⟩
  · simp only [stage2, addCensorWeights, List.map_map]
    rw [show (WRow.base ∘ censorRow pred) = id from rfl, List.map_id]
  · simp only [stage3]
    omega
  · simp only [stage3, expand_trials_eq_filter_map, List.map_map]
    rw [show (TrialRow.base ∘ fun r : WRow =>
      ({ base := r, trial_period := r.base.period,
         followup_time := 0 } : TrialRow)) = id from rfl, List.map_id]
  · simp [stage4, hv]
  · simp only [msmRows, List.map_map]
    rw [show (MsmRow.base ∘ fun r : TrialRow =>
      ({ base := r, assigned_treatment := r.base.base.treatment,
         ipcw_winsor := min r.base.ipcw
           (quantile99 (v.rows.map (fun r => r.base.ipcw))) } : MsmRow))
        = id from rfl, List.map_id]

/-- C9 witness: the ownership facts evaluated on concrete one-row
tables. -/
theorem stage_ownership_witness :
    (stage2 samplePred { tid := 0, rows := [sampleRowA] }).tid
        = ({ tid := 0, rows := [sampleRowA] } : PyTable Row).tid
    ∧ (stage2 samplePred { tid := 0, rows := [sampleRowA] }).rows.map WRow.base
        = [sampleRowA]
    ∧ (stage3 { tid := 1, rows := [wRowA] }).tid
        ≠ ({ tid := 1, rows := [wRowA] } : PyTable WRow).tid
    ∧ (stage3 { tid := 1, rows := [wRowA] }).rows.map TrialRow.base
        = [wRowA].filter (fun r => decide (r.base.eligible = 1))
    ∧ stage4 { tid := 2, rows := [trialA] }
        = Except.ok { tid := 2, rows := msmRows [trialA] }
    ∧ (msmRows [trialA]).map MsmRow.base = [trialA] :=
  stage_ownership samplePred { tid := 0, rows := [sampleRowA] }
    { tid := 1, rows := [wRowA] } { tid := 2, rows := [trialA] } (by simp)

/-- Helper: every row of the outcome-stage table built from an expander
output has `followup_time = 0`. -/
theorem msm_followup_zero (d : List WRow) (m : MsmRow)
    (hm : m ∈ msmRows (expand_trials d)) : m.base.followup_time = 0 := by
  simp only [msmRows] at hm
  obtain ⟨r, hr, rfl⟩ := List.mem_map.mp hm
  rw [expand_trials_eq_filter_map] at hr
  obtain ⟨w, hw, rfl⟩ := List.mem_map.mp hr
  rfl

/-- C10: over any expander output, the `followup_time` covariate column
and the `np.power(followup_time, 2)` covariate column handed to the
outcome GLM are identically zero — both model terms are constant-zero
regressors. -/
theorem followup_columns_degenerate (d : List WRow) :
    followupCol (msmRows (expand_trials d))
        = List.replicate (msmRows (expand_trials d)).length 0
    ∧ followupSqCol (msmRows (expand_trials d))
        = List.replicate (msmRows (expand_trials d)).length 0 := by
  constructor
  · rw [List.eq_replicate_iff]
    refine ⟨by simp [followupCol], ?_⟩
    intro b hb
    obtain ⟨m, hm, rfl⟩ := List.mem_map.mp hb
    exact msm_followup_zero d m hm
  · rw [List.eq_replicate_iff]
    refine ⟨by simp [followupSqCol], ?_⟩
    intro b hb
    obtain ⟨m, hm, rfl⟩ := List.mem_map.mp hb
    rw [msm_followup_zero d m hm]
    norm_num
